import Mathlib

/-!
Verification of the mirador terminal database explorer.

This development shallowly embeds the parts of the TypeScript source that
the specification talks about:

* the PostgreSQL connection backend (`PostgresConnection` in
  `src/api-mode.tsx`): SSL-mode parsing in the constructor, `connect()`,
  and the deadline-raced `close()`;
* `validateConnectionId` (`src/utils/id-generator.ts`);
* the connection-registry persistence layer (`loadConnections` /
  `saveConnections`), modelled from the specification because only its
  test suite ships in this snapshot;
* the search and refresh-deduplication orchestration, likewise modelled
  from the specification.

Asynchronous interactions with the outside world (the pg pool, timers,
the file system) are embedded by passing the outcome of the external
operation as an explicit argument to the Lean function that mirrors the
TypeScript control flow around it.
-/

namespace Mirador

/-! ### Database engine types (`src/types/state.ts`) -/

/-- The closed set of supported engines (`DBType` in `src/types/state.ts`). -/
inductive DBType where
  | PostgreSQL
  | MySQL
  | SQLite
deriving DecidableEq, Repr

/-! ### Postgres backend (`PostgresConnection` in `src/api-mode.tsx`) -/

/-- The `ssl` option handed to the `pg` pool: either no TLS at all
(`sslConfig = false`) or TLS with the given `rejectUnauthorized` flag. -/
inductive SslSetting where
  | noTls
  | tls (rejectUnauthorized : Bool)
deriving DecidableEq, Repr

/-- Pool options of `DatabaseConfig` (`config.pool`), all optional. -/
structure PoolOptions where
  max : Option Nat := none
  idleTimeoutMillis : Option Nat := none
  connectionTimeoutMillis : Option Nat := none
  closeTimeoutMillis : Option Nat := none
deriving Repr

/-- The `DatabaseConfig` record as consumed by the Postgres constructor. -/
structure DatabaseConfig where
  connectionString : String
  pool : Option PoolOptions := none
deriving Repr

/-- Outcome of `new URL(config.connectionString)` followed by
`url.searchParams.get("sslmode")`: `none` when URL parsing throws,
`some q` when it succeeds with `q` the (optional) `sslmode` parameter. -/
abbrev UrlSslModeOutcome := Option (Option String)

/-- SSL-mode dispatch of the `PostgresConnection` constructor: starts from
the permissive default `{ rejectUnauthorized: false }`, overrides it for
recognized `sslmode` values, and keeps the default when URL parsing threw
(the `catch` branch) or the value is unrecognized. -/
def parseSslConfig (outcome : UrlSslModeOutcome) : SslSetting :=
  match outcome with
  | none => SslSetting.tls false
  | some sslMode =>
    if sslMode = some "disable" ∨ sslMode = some "0" then
      SslSetting.noTls
    else if sslMode = some "require" ∨ sslMode = some "prefer" then
      SslSetting.tls false
    else if sslMode = some "verify-ca" ∨ sslMode = some "verify-full" then
      SslSetting.tls true
    else
      SslSetting.tls false

/-- The configuration passed to `new Pool({...})` by the constructor. -/
structure PgPoolConfig where
  connectionString : String
  max : Nat
  idleTimeoutMillis : Nat
  connectionTimeoutMillis : Nat
  ssl : SslSetting
deriving DecidableEq, Repr

/-- Runtime state of a `PostgresConnection` handle. -/
structure PostgresConnection where
  poolConfig : PgPoolConfig
  connected : Bool
  closeTimeoutMillis : Nat
deriving DecidableEq, Repr

/-- The `PostgresConnection` constructor: SSL parsing, pool creation with
defaulted options (`max` 10, idle 30000 ms, connect 10000 ms), close
deadline default 5000 ms, and `connected` initially false. -/
def mkPostgresConnection (config : DatabaseConfig)
    (sslOutcome : UrlSslModeOutcome) : PostgresConnection :=
  { poolConfig :=
      { connectionString := config.connectionString
        max := ((config.pool.bind PoolOptions.max).getD 10)
        idleTimeoutMillis := ((config.pool.bind PoolOptions.idleTimeoutMillis).getD 30000)
        connectionTimeoutMillis :=
          ((config.pool.bind PoolOptions.connectionTimeoutMillis).getD 10000)
        ssl := parseSslConfig sslOutcome }
    connected := false
    closeTimeoutMillis := ((config.pool.bind PoolOptions.closeTimeoutMillis).getD 5000) }

/-- The `ConnectionError` shape (`src/database/errors.ts`): message plus the
engine-specific code and raw detail of the underlying failure. -/
structure ConnectionError where
  message : String
  code : Option String
  detail : Option String
deriving DecidableEq, Repr

/-- Outcome of the probe `await this.pool.query("SELECT 1")`: `Except.ok`
when the probe resolves, `Except.error` with the engine code/detail when
it rejects. -/
abbrev ProbeOutcome := Except (Option String × Option String) Unit

/-- The method `PostgresConnection.connect()`: runs the probe query; on success sets
`connected := true`, on failure throws a `ConnectionError` and leaves the
handle untouched. The pair returns the thrown-or-ok outcome together with
the handle state after the call. -/
def PostgresConnection.connect (s : PostgresConnection) (probe : ProbeOutcome) :
    Except ConnectionError Unit × PostgresConnection :=
  match probe with
  | Except.ok _ => (Except.ok (), { s with connected := true })
  | Except.error e =>
      (Except.error
        { message := "Failed to connect to PostgreSQL database."
          code := e.1
          detail := e.2 }, s)

/-- How the race between `this.pool.end()` and the close-deadline timer
resolves: either the native shutdown settles first (resolving or
rejecting), or the deadline fires first and the native shutdown settles
later with the given success flag. -/
inductive ShutdownOutcome where
  | settledFirst (ok : Bool)
  | deadlineFirst (eventualOk : Bool)
deriving DecidableEq, Repr

/-- What `close()` produces: the handle state after the call and the
non-fatal diagnostics (`console.warn` lines) emitted along the way. -/
structure CloseOutcome where
  state : PostgresConnection
  warnings : List String
deriving DecidableEq, Repr

/-- Diagnostics of `PostgresConnection.close()`, which races `pool.end()`
against the deadline timer. Every failure path of the race is caught inside the method — the
timeout produces the "timed out" warning and attaches a `catch` that only
warns if the continuing shutdown eventually fails; a pre-deadline
rejection produces the "failed to close cleanly" warning. -/
def closeWarnings : ShutdownOutcome → List String
  | ShutdownOutcome.settledFirst true => []
  | ShutdownOutcome.settledFirst false =>
      ["Failed to close PostgreSQL pool cleanly:"]
  | ShutdownOutcome.deadlineFirst true =>
      ["PostgreSQL pool close timed out; continuing shutdown asynchronously."]
  | ShutdownOutcome.deadlineFirst false =>
      ["PostgreSQL pool close timed out; continuing shutdown asynchronously.",
       "PostgreSQL pool close eventually failed:"]

/-- The method `PostgresConnection.close()`: races `pool.end()` against the
deadline timer; every failure path of the race is caught inside the method (see
`closeWarnings`), and the `finally` block always clears `connected`. The
method never throws: the returned `Except` is always `Except.ok`,
mirroring that all paths fall through the `catch`. -/
def PostgresConnection.close (s : PostgresConnection) (outcome : ShutdownOutcome) :
    Except ConnectionError CloseOutcome :=
  Except.ok { state := { s with connected := false }, warnings := closeWarnings outcome }

/-! ### Connection-id validation (`validateConnectionId` in
`src/utils/id-generator.ts`) -/

/-- Result shape of `validateConnectionId`. -/
structure IdValidationResult where
  isValid : Bool
  error : Option String
deriving DecidableEq, Repr

/-- One character of the `/^[a-zA-Z0-9_-]+$/` character class. -/
def isIdChar (c : Char) : Bool :=
  (('a' ≤ c ∧ c ≤ 'z') ∨ ('A' ≤ c ∧ c ≤ 'Z') ∨ ('0' ≤ c ∧ c ≤ '9')
    ∨ c = '_' ∨ c = '-')

/-- The function `validateConnectionId`: rejects the empty string (`!id`), ids shorter
than 8 or longer than 50 characters, and ids with a character outside
`[a-zA-Z0-9_-]`; accepts everything else. -/
def validateConnectionId (id : String) : IdValidationResult :=
  if id = "" then
    { isValid := false, error := some "Connection ID must be a non-empty string" }
  else if id.length < 8 then
    { isValid := false
      error := some "Connection ID must be at least 8 characters long" }
  else if id.length > 50 then
    { isValid := false
      error := some "Connection ID must be less than 50 characters long" }
  else if ¬ id.data.all isIdChar then
    { isValid := false
      error := some
        "Connection ID can only contain letters, numbers, hyphens, and underscores" }
  else
    { isValid := true, error := none }

/-! ### Connection registry (`src/utils/persistence.ts`)

The implementation file is absent from this snapshot (only its test suite
is present), so the registry is modelled from the specification. -/

/-- Persisted saved-connection record (`ConnectionInfo` in
`src/types/state.ts`). -/
structure ConnectionInfo where
  id : String
  name : String
  type : DBType
  connectionString : String
  createdAt : String
  updatedAt : String
deriving DecidableEq, Repr

/-- A JSON value, the shape of entries read from `connections.json`. -/
inductive Json where
  | null
  | bool (b : Bool)
  | num (n : Int)
  | str (s : String)
  | arr (elems : List Json)
  | obj (fields : List (String × Json))

/-- Look up a string-valued field of a JSON object. -/
def Json.strField (fields : List (String × Json)) (k : String) : Option String :=
  match fields.lookup k with
  | some (Json.str s) => some s
  | _ => none

/-- Serialized names of the `DBType` enum values. -/
def dbTypeToString : DBType → String
  | DBType.PostgreSQL => "postgresql"
  | DBType.MySQL => "mysql"
  | DBType.SQLite => "sqlite"

/-- Parse a serialized `DBType` enum value. -/
def dbTypeOfString (s : String) : Option DBType :=
  if s = "postgresql" then some DBType.PostgreSQL
  else if s = "mysql" then some DBType.MySQL
  else if s = "sqlite" then some DBType.SQLite
  else none

/-- Modelled from the spec: direct validation of one array entry against
the `ConnectionInfo` shape (the zod `connectionSchema` of the absent
`src/utils/persistence.ts`): an object with string fields `id`, `name`,
`connectionString`, `createdAt`, `updatedAt` and a recognized `type`. -/
def parseConnectionInfo (j : Json) : Option ConnectionInfo :=
  match j with
  | Json.obj fields => do
      let id ← Json.strField fields "id"
      let name ← Json.strField fields "name"
      let tyStr ← Json.strField fields "type"
      let ty ← dbTypeOfString tyStr
      let cs ← Json.strField fields "connectionString"
      let created ← Json.strField fields "createdAt"
      let updated ← Json.strField fields "updatedAt"
      pure { id := id, name := name, type := ty, connectionString := cs
             createdAt := created, updatedAt := updated }
  | _ => none

/-- Modelled from the spec: the driver-alias table of the legacy shape
(`postgres|postgresql|pg` → Postgres, `mysql` → MySQL,
`sqlite|sqlite3` → SQLite; anything else unrecognized). -/
def legacyDriverToType (driver : String) : Option DBType :=
  if driver = "postgres" ∨ driver = "postgresql" ∨ driver = "pg" then
    some DBType.PostgreSQL
  else if driver = "mysql" then some DBType.MySQL
  else if driver = "sqlite" ∨ driver = "sqlite3" then some DBType.SQLite
  else none

/-- Modelled from the spec: the legacy record shape
`{name, driver, connection_str}` (the name may be absent, in which case a
default is substituted). Requires string `driver` and `connection_str`
fields. -/
def parseLegacyEntry (j : Json) : Option (String × String × String) :=
  match j with
  | Json.obj fields => do
      let driver ← Json.strField fields "driver"
      let cs ← Json.strField fields "connection_str"
      pure ((Json.strField fields "name").getD "Imported connection", driver, cs)
  | _ => none

/-- Outcome of validating/normalizing one array entry. -/
inductive EntryOutcome where
  | valid (c : ConnectionInfo)
  | normalized (c : ConnectionInfo)
  | skipped
deriving DecidableEq, Repr

/-- Modelled from the spec: `normalizeConnectionEntry` of the absent
`src/utils/persistence.ts` — try the primary `ConnectionInfo` shape
first; on failure try the legacy shape, rewriting a recognized driver
into a fresh record with a new id (`newId`) and both timestamps set to
load time (`now`); otherwise the entry is skipped. -/
def classifyEntry (now : String) (newId : String) (j : Json) : EntryOutcome :=
  match parseConnectionInfo j with
  | some c => EntryOutcome.valid c
  | none =>
    match parseLegacyEntry j with
    | some (name, driver, cs) =>
      match legacyDriverToType driver with
      | some ty =>
          EntryOutcome.normalized
            { id := newId, name := name, type := ty, connectionString := cs
              createdAt := now, updatedAt := now }
      | none => EntryOutcome.skipped
    | none => EntryOutcome.skipped

/-- Classify every entry of the loaded array; `i` indexes the fresh-id
generator. Returns the kept connections in order together with the
`normalized` and `skipped` counters. -/
def classifyAll (now : String) (newId : Nat → String) :
    Nat → List Json → List ConnectionInfo × Nat × Nat
  | _, [] => ([], 0, 0)
  | i, j :: rest =>
    match classifyEntry now (newId i) j with
    | EntryOutcome.valid c =>
        let (cs, n, s) := classifyAll now newId i rest
        (c :: cs, n, s)
    | EntryOutcome.normalized c =>
        let (cs, n, s) := classifyAll now newId (i + 1) rest
        (c :: cs, n + 1, s)
    | EntryOutcome.skipped =>
        let (cs, n, s) := classifyAll now newId i rest
        (cs, n, s + 1)

/-- The dedup key: the `(type, connectionString)` pair. -/
def connKey (c : ConnectionInfo) : DBType × String :=
  (c.type, c.connectionString)

/-- Latest-`updatedAt` representative of a duplicate group: start from the
first occurrence and replace whenever a later entry is strictly newer. -/
def bestOf (c : ConnectionInfo) : List ConnectionInfo → ConnectionInfo
  | [] => c
  | a :: l => bestOf (if c.updatedAt < a.updatedAt then a else c) l

/-- Modelled from the spec: post-validation deduplication — entries
sharing a `(type, connectionString)` key collapse to the one with the
latest `updatedAt`, at the position of the group's first occurrence;
the second component counts the collapsed duplicates. -/
def dedupConnections : List ConnectionInfo → List ConnectionInfo × Nat
  | [] => ([], 0)
  | c :: rest =>
    let same := rest.filter (fun a => connKey a = connKey c)
    let rest' := rest.filter (fun a => ¬ connKey a = connKey c)
    (bestOf c same :: (dedupConnections rest').1,
     same.length + (dedupConnections rest').2)
termination_by l => l.length
decreasing_by
  all_goals
    simp only [List.length_cons]
    exact Nat.lt_succ_of_le (List.length_filter_le _ _)

/-- What `loadConnections` finds in the backing store: the file may be
missing, empty, unparseable JSON, or parsed JSON. -/
inductive StoreContent where
  | missing
  | empty
  | malformed
  | parsed (j : Json)

/-- Result shape of `loadConnections`. -/
structure ConnectionsLoadResult where
  connections : List ConnectionInfo
  normalized : Nat
  skipped : Nat
deriving DecidableEq, Repr

/-- Modelled from the spec: `loadConnections` of the absent
`src/utils/persistence.ts`. Missing or empty store → empty result;
unparseable content propagates a parse error; a non-array top level is
counted as one skipped entry; an array is validated/normalized entry by
entry and then deduplicated, duplicates adding to `skipped`. -/
def loadConnections (now : String) (newId : Nat → String)
    (store : StoreContent) : Except String ConnectionsLoadResult :=
  match store with
  | StoreContent.missing => Except.ok { connections := [], normalized := 0, skipped := 0 }
  | StoreContent.empty => Except.ok { connections := [], normalized := 0, skipped := 0 }
  | StoreContent.malformed => Except.error "Unexpected token in JSON"
  | StoreContent.parsed j =>
    match j with
    | Json.arr entries =>
        let (cs, n, s) := classifyAll now newId 0 entries
        let (ds, dups) := dedupConnections cs
        Except.ok { connections := ds, normalized := n, skipped := s + dups }
    | _ => Except.ok { connections := [], normalized := 0, skipped := 1 }

/-- Serialize one `ConnectionInfo` the way `JSON.stringify` lays it out. -/
def connectionInfoToJson (c : ConnectionInfo) : Json :=
  Json.obj
    [("id", Json.str c.id), ("name", Json.str c.name),
     ("type", Json.str (dbTypeToString c.type)),
     ("connectionString", Json.str c.connectionString),
     ("createdAt", Json.str c.createdAt), ("updatedAt", Json.str c.updatedAt)]

/-- Modelled from the spec: `saveConnections` writes the full list as the
serialized JSON array, so a subsequent load sees exactly that document. -/
def saveConnections (list : List ConnectionInfo) : StoreContent :=
  StoreContent.parsed (Json.arr (list.map connectionInfoToJson))

/-! ### Query orchestrator: search (`searchTableRows` in
`src/state/effects.ts`)

The implementation file is absent from this snapshot (only its test suite
is present), so the operation is modelled from the specification. -/

/-- A result row, as a mapping from column name to rendered value
(absent key = SQL NULL). -/
abbrev Row := List (String × String)

/-- Is `pat` a contiguous substring of `l`? -/
def isInfixList (pat : List Char) : List Char → Bool
  | [] => pat.isEmpty
  | c :: rest => pat.isPrefixOf (c :: rest) || isInfixList pat rest

/-- Case-insensitive substring test: does `v` contain `term` ignoring
case? -/
def containsIgnoreCase (v term : String) : Bool :=
  isInfixList term.toLower.data v.toLower.data

/-- Does a row match the search term in at least one of the given textual
columns (case-insensitive substring match)? -/
def rowMatches (textColumns : List String) (term : String) (row : Row) : Bool :=
  textColumns.any fun c =>
    match (List.lookup c row : Option String) with
    | some v => containsIgnoreCase v term
    | none => false

/-- The limit/offset page window shared by `fetchTableData` and
`searchTableRows`. -/
def paginate (offset limit : Nat) (rows : List Row) : List Row :=
  (rows.drop offset).take limit

/-- Modelled from the spec: `fetchTableData`'s `SELECT ... LIMIT limit
OFFSET offset` over a table's rows; `hasMoreRows` is true when the page
comes back full. -/
def fetchTableData (table : List Row) (offset limit : Nat) :
    List Row × Bool :=
  let page := paginate offset limit table
  (page, page.length = limit)

/-- A search page: rows, total match count, and the has-more flag. -/
structure SearchPage where
  rows : List Row
  totalCount : Nat
  hasMore : Bool
deriving DecidableEq, Repr

/-- Modelled from the spec: `searchTableRows` of the absent
`src/state/effects.ts` — a blank (empty or whitespace-only) term issues
no backend query and clears the search state (`none`); otherwise the
textual columns are filtered by case-insensitive substring match and
paginated identically to `fetchTableData`. -/
def searchTableRows (table : List Row) (textColumns : List String)
    (term : String) (offset limit : Nat) : Option SearchPage :=
  if term.data.all Char.isWhitespace then
    none
  else
    let matched := table.filter (rowMatches textColumns term)
    some { rows := paginate offset limit matched
           totalCount := matched.length
           hasMore := offset + limit < matched.length }

/-! ### Query orchestrator: refresh deduplication

The reducer/effects implementation is absent from this snapshot (only its
test suite is present), so the per-table refresh guard is modelled from
the specification: a mapping from RefreshKey to an in-flight flag plus a
last-completed timestamp. -/

/-- Orchestrator refresh state: the set of RefreshKeys with a fetch in
flight, and the last-completed timestamp per key. -/
structure RefreshState where
  inFlight : List String
  timestamps : List (String × Nat)
deriving DecidableEq, Repr

/-- Modelled from the spec: triggering a fetch for a key — if the
in-flight guard for the key is already set the request is dropped (state
unchanged, no query issued, `false`); otherwise the guard is set and the
query is issued (`true`). -/
def triggerFetch (s : RefreshState) (key : String) : RefreshState × Bool :=
  if key ∈ s.inFlight then
    (s, false)
  else
    ({ s with inFlight := key :: s.inFlight }, true)

/-- Modelled from the spec: completion of the in-flight fetch for a key —
whether it succeeded or failed, the guard clears and the last-completed
timestamp updates. -/
def completeFetch (s : RefreshState) (key : String) (_success : Bool)
    (t : Nat) : RefreshState :=
  { inFlight := s.inFlight.erase key
    timestamps := (key, t) :: s.timestamps.filter (fun p => ¬ p.1 = key) }

/-! ### Theorems -/

/-- C1: for every Postgres backend, `close()` never throws and is
idempotent — every call, including a repeated one on the already
disconnected handle, returns `Except.ok` with `connected := false`. When
the native shutdown settles before the deadline there is no timeout
diagnostic and the backend is marked disconnected; when the deadline
fires first the call still returns `Except.ok` and an eventual failure of
the continuing shutdown shows up only as a non-fatal diagnostic in the
warning list, never in the call's result. -/
theorem postgres_close_contract (s : PostgresConnection)
    (o o' : ShutdownOutcome) :
    PostgresConnection.close s o =
      Except.ok { state := { s with connected := false }
                  warnings := closeWarnings o } ∧
    PostgresConnection.close { s with connected := false } o' =
      Except.ok { state := { s with connected := false }
                  warnings := closeWarnings o' } ∧
    closeWarnings (ShutdownOutcome.settledFirst true) = [] ∧
    "PostgreSQL pool close eventually failed:" ∈
      closeWarnings (ShutdownOutcome.deadlineFirst false) := by
  refine ⟨rfl, rfl, rfl, ?_⟩
  simp [closeWarnings]

/-- C2: the Postgres constructor's sslmode dispatch — `disable` yields no
TLS, `require`/`prefer` yield TLS with verification off, `verify-ca` and
`verify-full` yield TLS with verification on, and an unparseable
connection string (URL parse failure, `none` outcome) does not fail the
constructor but falls back to permissive TLS (verification off). -/
theorem postgres_sslmode_contract :
    parseSslConfig (some (some "disable")) = SslSetting.noTls ∧
    parseSslConfig (some (some "require")) = SslSetting.tls false ∧
    parseSslConfig (some (some "prefer")) = SslSetting.tls false ∧
    parseSslConfig (some (some "verify-ca")) = SslSetting.tls true ∧
    parseSslConfig (some (some "verify-full")) = SslSetting.tls true ∧
    parseSslConfig none = SslSetting.tls false ∧
    ∀ (cfg : DatabaseConfig) (o : UrlSslModeOutcome),
      (mkPostgresConnection cfg o).poolConfig.ssl = parseSslConfig o := by
  refine ⟨by decide, by decide, by decide, by decide, by decide, rfl, ?_⟩
  intro cfg o
  rfl

/-- C4: `connect()` on a not-yet-connected Postgres handle either
completes with the connected flag true, or throws a `ConnectionError`
and leaves the handle not marked connected; it never partially marks the
handle connected on failure. -/
theorem postgres_connect_contract (s : PostgresConnection)
    (probe : ProbeOutcome) (h : s.connected = false) :
    (∃ s', PostgresConnection.connect s probe = (Except.ok (), s') ∧
      s'.connected = true) ∨
    (∃ e s', PostgresConnection.connect s probe = (Except.error e, s') ∧
      s'.connected = false ∧
      e.message = "Failed to connect to PostgreSQL database.") := by
  cases probe with
  | ok u =>
      left
      exact ⟨{ s with connected := true }, rfl, rfl⟩
  | error e =>
      right
      exact ⟨_, s, rfl, h, rfl⟩

/-- Witness for C4 at a concrete handle and probe outcome. -/
theorem postgres_connect_contract_witness :
    (∃ s', PostgresConnection.connect
        (mkPostgresConnection { connectionString := "postgres://h/d" } none)
        (Except.ok ()) = (Except.ok (), s') ∧ s'.connected = true) ∨
    (∃ e s', PostgresConnection.connect
        (mkPostgresConnection { connectionString := "postgres://h/d" } none)
        (Except.ok ()) = (Except.error e, s') ∧ s'.connected = false ∧
      e.message = "Failed to connect to PostgreSQL database.") :=
  postgres_connect_contract
    (mkPostgresConnection { connectionString := "postgres://h/d" } none)
    (Except.ok ()) rfl

/-- C10: `validateConnectionId` accepts exactly the strings of length 8
through 50 drawn from the characters `[A-Za-z0-9_-]`; in particular every
id longer than 50 characters is rejected. -/
theorem validateConnectionId_characterization (id : String) :
    (validateConnectionId id).isValid = true ↔
      (8 ≤ id.length ∧ id.length ≤ 50 ∧ id.data.all isIdChar = true) := by
  unfold validateConnectionId
  split_ifs with h0 h1 h2 h3
  · subst h0
    simp
  · simp only [show (false = true) = False from by simp, false_iff]
    intro hc
    omega
  · simp only [show (false = true) = False from by simp, false_iff]
    intro hc
    omega
  · simp only [true_iff]
    exact ⟨by omega, by omega, h3⟩
  · simp only [show (false = true) = False from by simp, false_iff]
    intro hc
    exact h3 hc.2.2

/-- C5: `loadConnections` on a missing or empty backing store returns the
empty result with zero counters; on non-parseable content it propagates a
parse error instead of returning an empty result; and on parseable
content whose top level is not an array it returns the empty result with
`skipped = 1`. -/
theorem loadConnections_store_shapes (now : String) (newId : Nat → String) :
    loadConnections now newId StoreContent.missing =
      Except.ok { connections := [], normalized := 0, skipped := 0 } ∧
    loadConnections now newId StoreContent.empty =
      Except.ok { connections := [], normalized := 0, skipped := 0 } ∧
    (∃ msg, loadConnections now newId StoreContent.malformed =
      Except.error msg) ∧
    (∀ j : Json, (∀ xs, j ≠ Json.arr xs) →
      loadConnections now newId (StoreContent.parsed j) =
        Except.ok { connections := [], normalized := 0, skipped := 1 }) := by
  refine ⟨rfl, rfl, ⟨_, rfl⟩, ?_⟩
  intro j hne
  cases j with
  | arr xs => exact absurd rfl (hne xs)
  | null => rfl
  | bool b => rfl
  | num n => rfl
  | str s => rfl
  | obj fields => rfl

/-- Witness for C5: the non-array branch at a concrete JSON object. -/
theorem loadConnections_store_shapes_witness :
    loadConnections "2023-01-01" (fun _ => "conn-id")
        (StoreContent.parsed (Json.obj [("not", Json.str "an array")])) =
      Except.ok { connections := [], normalized := 0, skipped := 1 } :=
  (loadConnections_store_shapes "2023-01-01" (fun _ => "conn-id")).2.2.2
    (Json.obj [("not", Json.str "an array")]) (fun _ h => Json.noConfusion h)

/-- C6: an entry failing direct validation but matching the legacy shape
with a recognized driver alias (`postgres`/`postgresql`/`pg` → Postgres,
`mysql` → MySQL, `sqlite`/`sqlite3` → SQLite) is rewritten into a fresh
`ConnectionInfo` with the new id and both timestamps set to load time and
is counted as normalized; an entry matching neither shape, or whose
driver is unrecognized, is skipped and dropped. -/
theorem legacy_normalization_contract (now newId : String) (j : Json)
    (hdirect : parseConnectionInfo j = none) :
    (∀ name driver cs ty,
      parseLegacyEntry j = some (name, driver, cs) →
      legacyDriverToType driver = some ty →
      classifyEntry now newId j =
        EntryOutcome.normalized
          { id := newId, name := name, type := ty, connectionString := cs
            createdAt := now, updatedAt := now }) ∧
    (∀ name driver cs,
      parseLegacyEntry j = some (name, driver, cs) →
      legacyDriverToType driver = none →
      classifyEntry now newId j = EntryOutcome.skipped) ∧
    (parseLegacyEntry j = none →
      classifyEntry now newId j = EntryOutcome.skipped) ∧
    legacyDriverToType "postgres" = some DBType.PostgreSQL ∧
    legacyDriverToType "postgresql" = some DBType.PostgreSQL ∧
    legacyDriverToType "pg" = some DBType.PostgreSQL ∧
    legacyDriverToType "mysql" = some DBType.MySQL ∧
    legacyDriverToType "sqlite" = some DBType.SQLite ∧
    legacyDriverToType "sqlite3" = some DBType.SQLite ∧
    legacyDriverToType "oracle" = none ∧
    (∀ name driver cs ty,
      parseLegacyEntry j = some (name, driver, cs) →
      legacyDriverToType driver = some ty →
      loadConnections now (fun _ => newId)
          (StoreContent.parsed (Json.arr [j])) =
        Except.ok
          { connections :=
              [{ id := newId, name := name, type := ty, connectionString := cs
                 createdAt := now, updatedAt := now }]
            normalized := 1, skipped := 0 }) ∧
    (parseLegacyEntry j = none →
      loadConnections now (fun _ => newId)
          (StoreContent.parsed (Json.arr [j])) =
        Except.ok { connections := [], normalized := 0, skipped := 1 }) := by
  have hcls : ∀ name driver cs ty,
      parseLegacyEntry j = some (name, driver, cs) →
      legacyDriverToType driver = some ty →
      classifyEntry now newId j =
        EntryOutcome.normalized
          { id := newId, name := name, type := ty, connectionString := cs
            createdAt := now, updatedAt := now } := by
    intro name driver cs ty hleg hty
    simp only [classifyEntry, hdirect, hleg, hty]
  have hskip : parseLegacyEntry j = none →
      classifyEntry now newId j = EntryOutcome.skipped := by
    intro hleg
    simp only [classifyEntry, hdirect, hleg]
  refine ⟨hcls, ?_, hskip, by decide, by decide, by decide, by decide,
    by decide, by decide, by decide, ?_, ?_⟩
  · intro name driver cs hleg hty
    simp only [classifyEntry, hdirect, hleg, hty]
  · intro name driver cs ty hleg hty
    simp only [loadConnections, classifyAll,
      hcls name driver cs ty hleg hty, dedupConnections, List.filter_nil,
      bestOf, List.length_nil]
  · intro hleg
    simp [loadConnections, classifyAll, hskip hleg, dedupConnections]

/-- Witness for C6: the concrete legacy entry
`{name: "Legacy DB", driver: "postgres", connection_str: ...}` is
normalized into a fresh Postgres record. -/
theorem legacy_normalization_contract_witness :
    classifyEntry "2023-05-01" "fresh-id-1"
        (Json.obj [("name", Json.str "Legacy DB"),
          ("driver", Json.str "postgres"),
          ("connection_str", Json.str "postgres://localhost/legacy")]) =
      EntryOutcome.normalized
        { id := "fresh-id-1", name := "Legacy DB", type := DBType.PostgreSQL
          connectionString := "postgres://localhost/legacy"
          createdAt := "2023-05-01", updatedAt := "2023-05-01" } :=
  (legacy_normalization_contract "2023-05-01" "fresh-id-1"
      (Json.obj [("name", Json.str "Legacy DB"),
        ("driver", Json.str "postgres"),
        ("connection_str", Json.str "postgres://localhost/legacy")])
      (by decide)).1
    "Legacy DB" "postgres" "postgres://localhost/legacy" DBType.PostgreSQL
    (by decide) (by decide)

/-- C9: a search whose term is empty or whitespace-only issues no backend
query and clears the search state; a non-blank term performs a
case-insensitive substring match across the textual columns, with the
page window being exactly the one `fetchTableData` uses. -/
theorem searchTableRows_contract :
    (∀ (table : List Row) (cols : List String) (term : String)
        (off lim : Nat), term.data.all Char.isWhitespace = true →
      searchTableRows table cols term off lim = none) ∧
    (∀ (table : List Row) (cols : List String) (term : String)
        (off lim : Nat), term.data.all Char.isWhitespace = false →
      searchTableRows table cols term off lim =
        some { rows := paginate off lim
                 (table.filter (rowMatches cols term))
               totalCount := (table.filter (rowMatches cols term)).length
               hasMore := off + lim <
                 (table.filter (rowMatches cols term)).length }) ∧
    (∀ (table : List Row) (off lim : Nat),
      (fetchTableData table off lim).1 = paginate off lim table) := by
  refine ⟨?_, ?_, fun _ _ _ => rfl⟩
  · intro table cols term off lim hblank
    unfold searchTableRows
    simp only [hblank, if_true]
  · intro table cols term off lim hblank
    unfold searchTableRows
    simp only [hblank, Bool.false_eq_true, if_false]

/-- Witness for C9: a whitespace-only term is a no-op; a non-blank term
filters and paginates. -/
theorem searchTableRows_contract_witness :
    searchTableRows [[("name", "Alice")]] ["name"] "   " 0 50 = none ∧
    searchTableRows [[("name", "Alice")], [("name", "Bob")]] ["name"]
        "ali" 0 50 =
      some { rows := paginate 0 50
               ([[("name", "Alice")], [("name", "Bob")]].filter
                 (rowMatches ["name"] "ali"))
             totalCount :=
               ([[("name", "Alice")], [("name", "Bob")]].filter
                 (rowMatches ["name"] "ali")).length
             hasMore := 0 + 50 <
               ([[("name", "Alice")], [("name", "Bob")]].filter
                 (rowMatches ["name"] "ali")).length } :=
  ⟨searchTableRows_contract.1 [[("name", "Alice")]] ["name"] "   " 0 50
      (by decide),
   searchTableRows_contract.2.1 [[("name", "Alice")], [("name", "Bob")]]
      ["name"] "ali" 0 50 (by decide)⟩

/-- C3: per RefreshKey at-most-one-fetch-in-flight — a trigger while a
fetch for the key is pending is dropped (state unchanged, no query
issued, never queued); a trigger with no pending fetch sets the guard and
issues the query; completion, whether success or failure, clears the
guard and updates the last-completed timestamp; and the no-duplicate
invariant of the guard set is preserved by both transitions, so the key
is in flight at most once at any time. -/
theorem refresh_guard_contract (s : RefreshState) (k : String) (b : Bool)
    (t : Nat) (hnodup : s.inFlight.Nodup) :
    (k ∈ s.inFlight → triggerFetch s k = (s, false)) ∧
    (k ∉ s.inFlight →
      triggerFetch s k = ({ s with inFlight := k :: s.inFlight }, true)) ∧
    (triggerFetch s k).1.inFlight.Nodup ∧
    (triggerFetch s k).1.inFlight.count k ≤ 1 ∧
    k ∉ (completeFetch s k b t).inFlight ∧
    (completeFetch s k b t).inFlight.Nodup ∧
    (completeFetch s k b t).timestamps.lookup k = some t := by
  refine ⟨fun hmem => ?_, fun hmem => ?_, ?_, ?_, ?_, ?_, ?_⟩
  · unfold triggerFetch
    rw [if_pos hmem]
  · unfold triggerFetch
    rw [if_neg hmem]
  · unfold triggerFetch
    split_ifs with hmem
    · exact hnodup
    · exact List.Nodup.cons hmem hnodup
  · unfold triggerFetch
    split_ifs with hmem
    · exact List.nodup_iff_count_le_one.mp hnodup k
    · exact List.nodup_iff_count_le_one.mp (List.Nodup.cons hmem hnodup) k
  · exact hnodup.not_mem_erase
  · exact hnodup.erase k
  · simp [completeFetch, List.lookup]

/-- Witness for C3 at a concrete refresh state: a second trigger for the
pending key is dropped, completion clears the guard and stamps the
completion time. -/
theorem refresh_guard_contract_witness :
    (triggerFetch { inFlight := ["public|users"], timestamps := [] }
        "public|users" =
      ({ inFlight := ["public|users"], timestamps := [] }, false)) ∧
    ("public|users" ∉
      (completeFetch { inFlight := ["public|users"], timestamps := [] }
        "public|users" false 17).inFlight) ∧
    ((completeFetch { inFlight := ["public|users"], timestamps := [] }
        "public|users" false 17).timestamps.lookup "public|users" =
      some 17) := by
  have h := refresh_guard_contract
    { inFlight := ["public|users"], timestamps := [] } "public|users" false
    17 (by decide)
  exact ⟨h.1 (by decide), h.2.2.2.2.1, h.2.2.2.2.2.2⟩

/-- The group representative is drawn from the group itself. -/
theorem bestOf_mem (c : ConnectionInfo) (l : List ConnectionInfo) :
    bestOf c l ∈ c :: l := by
  induction l generalizing c with
  | nil => simp [bestOf]
  | cons a l ih =>
    rw [bestOf]
    rcases List.mem_cons.mp (ih (if c.updatedAt < a.updatedAt then a else c))
      with h | h
    · rw [h]
      split_ifs
      · simp
      · simp
    · exact List.mem_cons_of_mem _ (List.mem_cons_of_mem _ h)

/-- The group representative has the latest `updatedAt` of the group. -/
theorem le_bestOf (c : ConnectionInfo) (l : List ConnectionInfo) :
    ∀ a ∈ c :: l, a.updatedAt ≤ (bestOf c l).updatedAt := by
  induction l generalizing c with
  | nil =>
    intro a ha
    rw [List.mem_singleton] at ha
    subst ha
    simp [bestOf]
  | cons b l ih =>
    intro a ha
    rw [bestOf]
    have hc : c.updatedAt ≤
        (if c.updatedAt < b.updatedAt then b else c).updatedAt := by
      split_ifs with h
      · exact le_of_lt h
      · exact le_refl _
    have hb : b.updatedAt ≤
        (if c.updatedAt < b.updatedAt then b else c).updatedAt := by
      split_ifs with h
      · exact le_refl _
      · exact le_of_not_lt h
    have hmem := ih (if c.updatedAt < b.updatedAt then b else c)
    rcases List.mem_cons.mp ha with rfl | ha'
    · exact hc.trans (hmem _ (List.mem_cons_self _ _))
    rcases List.mem_cons.mp ha' with rfl | ha''
    · exact hb.trans (hmem _ (List.mem_cons_self _ _))
    · exact hmem _ (List.mem_cons_of_mem _ ha'')

/-- The group representative carries the group's key. -/
theorem bestOf_key (c : ConnectionInfo) (l : List ConnectionInfo)
    (h : ∀ a ∈ l, connKey a = connKey c) :
    connKey (bestOf c l) = connKey c := by
  rcases List.mem_cons.mp (bestOf_mem c l) with h1 | h1
  · rw [h1]
  · exact h _ h1

/-- A key's group and its complement partition the list. -/
theorem length_filter_key (c : ConnectionInfo) (l : List ConnectionInfo) :
    (l.filter (fun a => connKey a = connKey c)).length
      + (l.filter (fun a => ¬ connKey a = connKey c)).length = l.length := by
  induction l with
  | nil => rfl
  | cons a l ih =>
    by_cases h : connKey a = connKey c <;>
      simp [List.filter_cons, h, decide_not] at ih ⊢ <;> omega

/-- C7: deduplication collapses every group of entries sharing the same
`(type, connectionString)` pair to a single entry of that group carrying
the group's latest `updatedAt` (every group member's `updatedAt` is ≤ the
survivor's), output keys are pairwise distinct, survivors all come from
the input, and the duplicate counter added to `skipped` counts exactly
the collapsed entries. -/
theorem dedupConnections_collapses (l : List ConnectionInfo) :
    (∀ o ∈ (dedupConnections l).1, o ∈ l) ∧
    (∀ e ∈ l, ∃ o ∈ (dedupConnections l).1,
      connKey o = connKey e ∧ e.updatedAt ≤ o.updatedAt) ∧
    ((dedupConnections l).1.map connKey).Nodup ∧
    (dedupConnections l).2 + (dedupConnections l).1.length = l.length := by
  induction l using dedupConnections.induct with
  | case1 =>
    refine ⟨?_, ?_, ?_, ?_⟩ <;> simp [dedupConnections]
  | case2 c rest rest' ih =>
    have hrest' : rest' = rest.filter (fun a => ¬ connKey a = connKey c) := rfl
    have hstep : dedupConnections (c :: rest) =
        (bestOf c (rest.filter (fun a => connKey a = connKey c)) ::
          (dedupConnections rest').1,
         (rest.filter (fun a => connKey a = connKey c)).length +
          (dedupConnections rest').2) := by
      rw [hrest']
      simp only [dedupConnections]
    have hkey_same : ∀ a ∈ rest.filter (fun a => connKey a = connKey c),
        connKey a = connKey c := by
      intro a ha
      simpa using (List.mem_filter.mp ha).2
    have hkey_rest' : ∀ a ∈ rest', ¬ connKey a = connKey c := by
      intro a ha
      rw [hrest'] at ha
      simpa using (List.mem_filter.mp ha).2
    have hsub_rest' : ∀ a ∈ rest', a ∈ rest := by
      intro a ha
      rw [hrest'] at ha
      exact List.mem_of_mem_filter ha
    refine ⟨?_, ?_, ?_, ?_⟩
    · intro o ho
      rw [hstep] at ho
      rcases List.mem_cons.mp ho with h | h
      · subst h
        rcases List.mem_cons.mp
            (bestOf_mem c (rest.filter (fun a => connKey a = connKey c)))
          with h1 | h1
        · rw [h1]
          exact List.mem_cons_self _ _
        · exact List.mem_cons_of_mem _ (List.mem_of_mem_filter h1)
      · exact List.mem_cons_of_mem _ (hsub_rest' _ (ih.1 o h))
    · intro e he
      rcases List.mem_cons.mp he with rfl | he'
      · refine ⟨bestOf e (rest.filter (fun a => connKey a = connKey e)),
          ?_, ?_, ?_⟩
        · rw [hstep]
          exact List.mem_cons_self _ _
        · exact bestOf_key _ _ hkey_same
        · exact le_bestOf _ _ _ (List.mem_cons_self _ _)
      · by_cases hk : connKey e = connKey c
        · refine ⟨bestOf c (rest.filter (fun a => connKey a = connKey c)),
            ?_, ?_, ?_⟩
          · rw [hstep]
            exact List.mem_cons_self _ _
          · rw [bestOf_key _ _ hkey_same, hk]
          · refine le_bestOf _ _ _ (List.mem_cons_of_mem _ ?_)
            exact List.mem_filter.mpr ⟨he', by simpa using hk⟩
        · have he'' : e ∈ rest' := by
            rw [hrest']
            exact List.mem_filter.mpr ⟨he', by simpa using hk⟩
          obtain ⟨o, ho, hko, hle⟩ := ih.2.1 e he''
          refine ⟨o, ?_, hko, hle⟩
          rw [hstep]
          exact List.mem_cons_of_mem _ ho
    · rw [hstep]
      simp only [List.map_cons, List.nodup_cons]
      refine ⟨?_, ih.2.2.1⟩
      intro hmem
      rcases List.mem_map.mp hmem with ⟨o, ho, hko⟩
      have hko' : connKey o = connKey c := by
        rw [hko, bestOf_key _ _ hkey_same]
      exact hkey_rest' o (ih.1 o ho) hko'
    · rw [hstep]
      have hpart := length_filter_key c rest
      have hih := ih.2.2.2
      rw [hrest'] at hih ⊢
      simp only [List.length_cons]
      omega

/-- Witness for C7: two concrete records sharing a key collapse to the
newer one (the survivor dominates the older entry's `updatedAt`), and one
duplicate is counted. -/
theorem dedupConnections_collapses_witness :
    (∃ o ∈ (dedupConnections
        [{ id := "1", name := "Primary", type := DBType.PostgreSQL
           connectionString := "postgres://localhost/primary"
           createdAt := "2023-01-01", updatedAt := "2023-01-01" },
         { id := "2", name := "Primary (newer)", type := DBType.PostgreSQL
           connectionString := "postgres://localhost/primary"
           createdAt := "2023-01-02", updatedAt := "2023-01-02" }]).1,
      connKey o = connKey
          { id := "1", name := "Primary", type := DBType.PostgreSQL
            connectionString := "postgres://localhost/primary"
            createdAt := "2023-01-01", updatedAt := "2023-01-01" } ∧
        ("2023-01-01" : String) ≤ o.updatedAt) ∧
    (dedupConnections
        [{ id := "1", name := "Primary", type := DBType.PostgreSQL
           connectionString := "postgres://localhost/primary"
           createdAt := "2023-01-01", updatedAt := "2023-01-01" },
         { id := "2", name := "Primary (newer)", type := DBType.PostgreSQL
           connectionString := "postgres://localhost/primary"
           createdAt := "2023-01-02", updatedAt := "2023-01-02" }]).2 +
      (dedupConnections
        [{ id := "1", name := "Primary", type := DBType.PostgreSQL
           connectionString := "postgres://localhost/primary"
           createdAt := "2023-01-01", updatedAt := "2023-01-01" },
         { id := "2", name := "Primary (newer)", type := DBType.PostgreSQL
           connectionString := "postgres://localhost/primary"
           createdAt := "2023-01-02", updatedAt := "2023-01-02" }]).1.length = 2 := by
  have h := dedupConnections_collapses
    [{ id := "1", name := "Primary", type := DBType.PostgreSQL
       connectionString := "postgres://localhost/primary"
       createdAt := "2023-01-01", updatedAt := "2023-01-01" },
     { id := "2", name := "Primary (newer)", type := DBType.PostgreSQL
       connectionString := "postgres://localhost/primary"
       createdAt := "2023-01-02", updatedAt := "2023-01-02" }]
  exact ⟨h.2.1 _ (List.mem_cons_self _ _), h.2.2.2⟩

/-- Serialization then direct validation gives back the same record. -/
theorem parseConnectionInfo_roundtrip (c : ConnectionInfo) :
    parseConnectionInfo (connectionInfoToJson c) = some c := by
  rcases c with ⟨id, name, ty, cs, ca, ua⟩
  cases ty <;> rfl

/-- A serialized list of valid records classifies as all-valid: no entry
is normalized, none skipped. -/
theorem classifyAll_valid (now : String) (newId : Nat → String)
    (i : Nat) (l : List ConnectionInfo) :
    classifyAll now newId i (l.map connectionInfoToJson) = (l, 0, 0) := by
  induction l generalizing i with
  | nil => rfl
  | cons c l ihl =>
    simp only [List.map_cons, classifyAll, classifyEntry,
      parseConnectionInfo_roundtrip, ihl]

/-- Deduplication of a list whose `(type, connectionString)` keys are
pairwise distinct is the identity and collapses nothing. -/
theorem dedupConnections_nodupKeys (l : List ConnectionInfo) :
    (l.map connKey).Nodup → dedupConnections l = (l, 0) := by
  induction l using dedupConnections.induct with
  | case1 => intro _; simp [dedupConnections]
  | case2 c rest rest' ih =>
    intro h
    rw [List.map_cons, List.nodup_cons] at h
    have hnotin : ∀ a ∈ rest, ¬ connKey a = connKey c := by
      intro a ha hk
      exact h.1 (hk ▸ List.mem_map_of_mem connKey ha)
    have hsame : rest.filter (fun a => connKey a = connKey c) = [] := by
      refine List.filter_eq_nil_iff.mpr ?_
      intro a ha
      simpa using hnotin a ha
    have hr : rest' = rest := by
      show rest.filter (fun a => ¬ connKey a = connKey c) = rest
      refine List.filter_eq_self.mpr ?_
      intro a ha
      simpa using hnotin a ha
    have hd : dedupConnections rest = (rest, 0) := by
      rw [← hr]
      exact ih (hr ▸ h.2)
    simp only [dedupConnections]
    rw [show (rest.filter fun a => decide (connKey a = connKey c)) = [] from hsame]
    rw [show (rest.filter fun a => decide (¬ connKey a = connKey c)) = rest from hr]
    rw [hd]
    rfl

/-- C8: for every list of valid records with pairwise-distinct
`(type, connectionString)` keys (no legacy, no duplicate entries),
`saveConnections` followed by `loadConnections` yields back exactly the
list, with `normalized = 0` and `skipped = 0`. -/
theorem save_load_roundtrip (now : String) (newId : Nat → String)
    (l : List ConnectionInfo) (h : (l.map connKey).Nodup) :
    loadConnections now newId (saveConnections l) =
      Except.ok { connections := l, normalized := 0, skipped := 0 } := by
  unfold saveConnections loadConnections
  simp only [classifyAll_valid, dedupConnections_nodupKeys l h]

/-- Witness for C8 at a concrete one-element registry. -/
theorem save_load_roundtrip_witness :
    loadConnections "2023-02-02" (fun _ => "fresh")
        (saveConnections
          [{ id := "1", name := "Test DB", type := DBType.PostgreSQL
             connectionString := "postgres://localhost/test"
             createdAt := "2023-01-01", updatedAt := "2023-01-01" }]) =
      Except.ok
        { connections :=
            [{ id := "1", name := "Test DB", type := DBType.PostgreSQL
               connectionString := "postgres://localhost/test"
               createdAt := "2023-01-01", updatedAt := "2023-01-01" }]
          normalized := 0, skipped := 0 } :=
  save_load_roundtrip "2023-02-02" (fun _ => "fresh")
    [{ id := "1", name := "Test DB", type := DBType.PostgreSQL
       connectionString := "postgres://localhost/test"
       createdAt := "2023-01-01", updatedAt := "2023-01-01" }]
    (by simp)

end Mirador
